import Mathlib

/-!
Verification development for the gonetx/ipset command-compilation layer.

The Go sources are embedded shallowly:
* option/command string constants and the `cmd` predicates come from `cmd.go`;
* the `options` record and `releaseOptions` come from `option.go`;
* `set.Test`, `set.Restore`, `set.restore`, `parseInfo` and `getNumber`
  come from `set.go`;
* the `SetType` string constants come from `ipset.go`.

Strings are modelled as Lean `String` / `List Char`; Go byte slices over
ASCII data are modelled as `List Char`.  `time.Duration` (an `int64` count
of nanoseconds) is modelled as `Int`.  External process execution is
modelled by passing the tool's outcome (combined output plus a failure
flag) as an explicit argument.
-/

namespace Ipset

/-! ## Command verbs and option tokens (cmd.go) -/

def _create : String := "create"

def _add : String := "add"

def _del : String := "del"

def _test : String := "test"

def _destroy : String := "destroy"

def _list : String := "list"

def _save : String := "save"

def _restore : String := "restore"

def _flush : String := "flush"

def _rename : String := "rename"

def _swap : String := "swap"

def _version : String := "version"

def _exist : String := "-exist"

def _resolve : String := "-resolve"

def _timeout : String := "timeout"

def _counters : String := "counters"

def _packets : String := "packets"

def _bytes : String := "bytes"

def _comment : String := "comment"

def _skbinfo : String := "skbinfo"

def _skbmark : String := "skbmark"

def _skbprio : String := "skbprio"

def _skbqueue : String := "skbqueue"

def _nomatch : String := "nomatch"

def _forceadd : String := "forceadd"

def _family : String := "family"

def _hashsize : String := "hashsize"

def _maxelem : String := "maxelem"

def _netmask : String := "netmask"

def _markmask : String := "markmask"

def _size : String := "size"

def _range : String := "range"

/-! ## SetType constants (ipset.go) -/

def BitmapIp : String := "bitmap:ip"

def BitmapIpMac : String := "bitmap:ip,mac"

def BitmapPort : String := "bitmap:port"

def HashIp : String := "hash:ip"

def HashMac : String := "hash:mac"

def HashIpMac : String := "hash:ip,mac"

def HashNet : String := "hash:net"

def HashNetNet : String := "hash:net,net"

def HashIpPort : String := "hash:ip,port"

def HashNetPort : String := "hash:net,port"

def HashIpPortIp : String := "hash:ip,port,ip"

def HashIpPortNet : String := "hash:ip,port,net"

def HashIpMark : String := "hash:ip,mark"

def HashNetPortNet : String := "hash:net,port,net"

def HashNetIface : String := "hash:net,iface"

def ListSet : String := "list:set"

/-- The 11 action verbs of the taxonomy (`testActions` in the tests). -/
def actions : List String :=
  [_create, _add, _del, _test, _destroy, _list, _save, _restore, _flush,
   _rename, _swap]

/-- The 16 fixed set types (`testSetTypes` in the tests). -/
def setTypes : List String :=
  [BitmapIp, BitmapIpMac, BitmapPort, HashIp, HashMac, HashIpMac, HashNet,
   HashNetNet, HashIpPort, HashNetPort, HashIpPortIp, HashIpPortNet,
   HashIpMark, HashNetPortNet, HashNetIface, ListSet]

/-! ## The modifier bag (`options`, option.go) -/

/-- `type options struct` from option.go.  `timeout` is a `time.Duration`,
i.e. a signed 64-bit count of nanoseconds, modelled as `Int`; the `uint`,
`byte` and `uint32` fields are modelled as `Nat`; `NetFamily` is a string.
The default value of every field is Go's zero value, the "unset sentinel". -/
structure options where
  exist : Bool := false
  resolve : Bool := false
  timeout : Int := 0
  counters : Bool := false
  countersPackets : Nat := 0
  countersBytes : Nat := 0
  comment : Bool := false
  commentContent : String := ""
  skbinfo : Bool := false
  skbmark : String := ""
  skbprio : String := ""
  skbqueue : Nat := 0
  hashSize : Nat := 0
  maxElem : Nat := 0
  family : String := ""
  nomatch' : Bool := false
  forceadd : Bool := false
  ipRange : String := ""
  portRange : String := ""
  netmask : Nat := 0
  markmask : Nat := 0
  listSize : Nat := 0
deriving DecidableEq, Repr

/-- `releaseOptions` from option.go: resets each field of the record to its
zero value before returning the instance to the pool (the pool itself is
modelled by explicitly passing records around). -/
def releaseOptions (o : options) : options :=
  { o with
    timeout := 0
    exist := false
    resolve := false
    counters := false
    countersPackets := 0
    countersBytes := 0
    comment := false
    commentContent := ""
    skbinfo := false
    skbmark := ""
    skbprio := ""
    skbqueue := 0
    hashSize := 0
    maxElem := 0
    family := ""
    nomatch' := false
    forceadd := false
    netmask := 0
    markmask := 0
    listSize := 0
    ipRange := ""
    portRange := "" }

/-! ## The command descriptor (`cmd`, cmd.go) -/

/-- `type cmd struct` from cmd.go.  `setType` is the `SetType` string and
`out` is the captured-output buffer (a byte slice, modelled as `String`). -/
structure cmd where
  action : String
  name : String
  entry : String
  setType : String
  out : String
deriving DecidableEq, Repr

/-- `strings.HasPrefix` on char lists. -/
def hasPrefCL : List Char → List Char → Bool
  | [], _ => true
  | _ :: _, [] => false
  | p :: ps, c :: cs => p == c && hasPrefCL ps cs

/-- `strings.HasPrefix`. -/
def strHasPref (p s : String) : Bool := hasPrefCL p.toList s.toList

def cmd.isTwoArgs (c : cmd) : Bool :=
  c.action == _list || c.action == _save || c.action == _destroy ||
    c.action == _flush

def cmd.needExist (c : cmd) : Bool :=
  c.action == _create || c.action == _add || c.action == _del

def cmd.needTimeout (c : cmd) : Bool :=
  c.action == _create || c.action == _add

def cmd.needResolve (c : cmd) : Bool :=
  c.action == _list || c.action == _save

def cmd.needCounters (c : cmd) : Bool :=
  c.action == _create

def cmd.onlyAdd (c : cmd) : Bool :=
  c.action == _add

def cmd.onlyCreate (c : cmd) : Bool :=
  c.action == _create

def cmd.needNomatch (c : cmd) : Bool :=
  c.action == _add &&
    (c.setType == HashNet || c.setType == HashNetNet ||
      c.setType == HashNetPort || c.setType == HashIpPortNet ||
      c.setType == HashNetPortNet || c.setType == HashNetIface)

def cmd.needFamily (c : cmd) : Bool :=
  c.action == _create && !(c.setType == HashMac) && strHasPref "hash" c.setType

def cmd.needHash (c : cmd) : Bool :=
  c.action == _create && strHasPref "hash" c.setType

def cmd.needNetmask (c : cmd) : Bool :=
  c.action == _create && (c.setType == BitmapIp || c.setType == HashIp)

def cmd.needMarkmask (c : cmd) : Bool :=
  c.action == _create && c.setType == HashIpMark

def cmd.needListSize (c : cmd) : Bool :=
  c.action == _create && c.setType == ListSet

def cmd.needIpRange (c : cmd) : Bool :=
  c.action == _create && (c.setType == BitmapIp || c.setType == BitmapIpMac)

def cmd.needPortRange (c : cmd) : Bool :=
  c.action == _create && c.setType == BitmapPort

/-- `strconv.FormatUint(i, 10)` (`i2str` in cmd.go). -/
def i2str (i : Nat) : String := Nat.repr i

/-- `uint64(o.timeout.Seconds())`: Go converts the duration to seconds via
`float64` and truncates toward zero; for the positive durations that reach
this conversion it equals truncating division by 10^9. -/
def durationSeconds (d : Int) : Nat := (d / 1000000000).toNat

/-- `(c *cmd) appendArgs` from cmd.go: one `let` re-binding per Go `if`
block, in the source's order. -/
def cmd.appendArgs (c : cmd) (args0 : List String) (o : options) :
    List String :=
  let args := args0
  let args := if o.timeout > 0 ∧ c.needTimeout then
    args ++ [_timeout, i2str (durationSeconds o.timeout)] else args
  let args := if o.exist ∧ c.needExist then args ++ [_exist] else args
  let args := if o.resolve ∧ c.needResolve then args ++ [_resolve] else args
  let args := if o.counters ∧ c.needCounters then
    args ++ [_counters] else args
  let args := if o.countersPackets > 0 ∧ c.onlyAdd then
    args ++ [_packets, i2str o.countersPackets] else args
  let args := if o.countersBytes > 0 ∧ c.onlyAdd then
    args ++ [_bytes, i2str o.countersBytes] else args
  let args := if o.comment ∧ c.onlyCreate then args ++ [_comment] else args
  let args := if o.commentContent ≠ "" ∧ c.onlyAdd then
    args ++ [_comment, o.commentContent] else args
  let args := if o.skbinfo ∧ c.onlyCreate then args ++ [_skbinfo] else args
  let args := if o.skbmark ≠ "" ∧ c.onlyAdd then
    args ++ [_skbmark, o.skbmark] else args
  let args := if o.skbprio ≠ "" ∧ c.onlyAdd then
    args ++ [_skbprio, o.skbprio] else args
  let args := if o.skbqueue ≠ 0 ∧ c.onlyAdd then
    args ++ [_skbqueue, i2str o.skbqueue] else args
  let args := if o.nomatch' ∧ c.needNomatch then args ++ [_nomatch] else args
  let args := if o.forceadd ∧ c.onlyCreate then
    args ++ [_forceadd] else args
  let args := if o.family ≠ "" ∧ c.needFamily then
    args ++ [_family, o.family] else args
  let args := if o.hashSize ≠ 0 ∧ c.needHash then
    args ++ [_hashsize, i2str o.hashSize] else args
  let args := if o.maxElem ≠ 0 ∧ c.needHash then
    args ++ [_maxelem, i2str o.maxElem] else args
  let args := if o.netmask ≠ 0 ∧ c.needNetmask then
    args ++ [_netmask, i2str o.netmask] else args
  let args := if o.markmask ≠ 0 ∧ c.needMarkmask then
    args ++ [_markmask, i2str o.markmask] else args
  let args := if o.listSize ≠ 0 ∧ c.needListSize then
    args ++ [_size, i2str o.listSize] else args
  let args := if o.ipRange ≠ "" ∧ c.needIpRange then
    args ++ [_range, o.ipRange] else args
  let args := if o.portRange ≠ "" ∧ c.needPortRange then
    args ++ [_range, o.portRange] else args
  args

/-- `(c *cmd) buildArgs` from cmd.go. -/
def cmd.buildArgs (c : cmd) (o : options) : List String :=
  let args := [c.action, c.name]
  let args := if !c.isTwoArgs then args ++ [c.entry] else args
  c.appendArgs args o

/-! ## Per-category token lists

One definition per modifier category, with exactly the guard and tokens of
the corresponding `appendArgs` block; used to state the compiled sequence
as a concatenation in the fixed category order. -/

def catTimeout (c : cmd) (o : options) : List String :=
  if o.timeout > 0 ∧ c.needTimeout then
    [_timeout, i2str (durationSeconds o.timeout)] else []

def catExist (c : cmd) (o : options) : List String :=
  if o.exist ∧ c.needExist then [_exist] else []

def catResolve (c : cmd) (o : options) : List String :=
  if o.resolve ∧ c.needResolve then [_resolve] else []

def catCounters (c : cmd) (o : options) : List String :=
  if o.counters ∧ c.needCounters then [_counters] else []

def catPackets (c : cmd) (o : options) : List String :=
  if o.countersPackets > 0 ∧ c.onlyAdd then
    [_packets, i2str o.countersPackets] else []

def catBytes (c : cmd) (o : options) : List String :=
  if o.countersBytes > 0 ∧ c.onlyAdd then
    [_bytes, i2str o.countersBytes] else []

def catCommentFlag (c : cmd) (o : options) : List String :=
  if o.comment ∧ c.onlyCreate then [_comment] else []

def catCommentContent (c : cmd) (o : options) : List String :=
  if o.commentContent ≠ "" ∧ c.onlyAdd then
    [_comment, o.commentContent] else []

def catSkbinfo (c : cmd) (o : options) : List String :=
  if o.skbinfo ∧ c.onlyCreate then [_skbinfo] else []

def catSkbmark (c : cmd) (o : options) : List String :=
  if o.skbmark ≠ "" ∧ c.onlyAdd then [_skbmark, o.skbmark] else []

def catSkbprio (c : cmd) (o : options) : List String :=
  if o.skbprio ≠ "" ∧ c.onlyAdd then [_skbprio, o.skbprio] else []

def catSkbqueue (c : cmd) (o : options) : List String :=
  if o.skbqueue ≠ 0 ∧ c.onlyAdd then [_skbqueue, i2str o.skbqueue] else []

def catNomatch (c : cmd) (o : options) : List String :=
  if o.nomatch' ∧ c.needNomatch then [_nomatch] else []

def catForceadd (c : cmd) (o : options) : List String :=
  if o.forceadd ∧ c.onlyCreate then [_forceadd] else []

def catFamily (c : cmd) (o : options) : List String :=
  if o.family ≠ "" ∧ c.needFamily then [_family, o.family] else []

def catHashsize (c : cmd) (o : options) : List String :=
  if o.hashSize ≠ 0 ∧ c.needHash then [_hashsize, i2str o.hashSize] else []

def catMaxelem (c : cmd) (o : options) : List String :=
  if o.maxElem ≠ 0 ∧ c.needHash then [_maxelem, i2str o.maxElem] else []

def catNetmask (c : cmd) (o : options) : List String :=
  if o.netmask ≠ 0 ∧ c.needNetmask then [_netmask, i2str o.netmask] else []

def catMarkmask (c : cmd) (o : options) : List String :=
  if o.markmask ≠ 0 ∧ c.needMarkmask then
    [_markmask, i2str o.markmask] else []

def catListSize (c : cmd) (o : options) : List String :=
  if o.listSize ≠ 0 ∧ c.needListSize then [_size, i2str o.listSize] else []

def catIpRange (c : cmd) (o : options) : List String :=
  if o.ipRange ≠ "" ∧ c.needIpRange then [_range, o.ipRange] else []

def catPortRange (c : cmd) (o : options) : List String :=
  if o.portRange ≠ "" ∧ c.needPortRange then [_range, o.portRange] else []

/-- The flag suffix of a compiled command, as the concatenation of the
per-category token lists in the fixed order of cmd.go / spec §4.4. -/
def flagTokens (c : cmd) (o : options) : List String :=
  catTimeout c o ++ catExist c o ++ catResolve c o ++ catCounters c o ++
    catPackets c o ++ catBytes c o ++ catCommentFlag c o ++
    catCommentContent c o ++ catSkbinfo c o ++ catSkbmark c o ++
    catSkbprio c o ++ catSkbqueue c o ++ catNomatch c o ++
    catForceadd c o ++ catFamily c o ++ catHashsize c o ++
    catMaxelem c o ++ catNetmask c o ++ catMarkmask c o ++
    catListSize c o ++ catIpRange c o ++ catPortRange c o

/-- The per-category containment matrix for a command descriptor, one
conjunct per modifier category, each applying a single modifier onto an
otherwise-unset bag: the compiled token list contains the category's flag
iff the source guard (value differs from the unset sentinel — strictly
positive, for the signed timeout duration — and the applicability
predicate holds) is satisfied. -/
def modifierFlagMatrix (c : cmd) : Prop :=
  (c.appendArgs [] {} = []) ∧
  (∀ t : Int, _timeout ∈ c.appendArgs [] { timeout := t } ↔
    (t > 0 ∧ c.needTimeout = true)) ∧
  (∀ b : Bool, _exist ∈ c.appendArgs [] { exist := b } ↔
    (b = true ∧ c.needExist = true)) ∧
  (∀ b : Bool, _resolve ∈ c.appendArgs [] { resolve := b } ↔
    (b = true ∧ c.needResolve = true)) ∧
  (∀ b : Bool, _counters ∈ c.appendArgs [] { counters := b } ↔
    (b = true ∧ c.needCounters = true)) ∧
  (∀ n : Nat, _packets ∈ c.appendArgs [] { countersPackets := n } ↔
    (n > 0 ∧ c.onlyAdd = true)) ∧
  (∀ n : Nat, _bytes ∈ c.appendArgs [] { countersBytes := n } ↔
    (n > 0 ∧ c.onlyAdd = true)) ∧
  (∀ b : Bool, _comment ∈ c.appendArgs [] { comment := b } ↔
    (b = true ∧ c.onlyCreate = true)) ∧
  (∀ s : String, _comment ∈ c.appendArgs [] { commentContent := s } ↔
    (s ≠ "" ∧ c.onlyAdd = true)) ∧
  (∀ b : Bool, _skbinfo ∈ c.appendArgs [] { skbinfo := b } ↔
    (b = true ∧ c.onlyCreate = true)) ∧
  (∀ s : String, _skbmark ∈ c.appendArgs [] { skbmark := s } ↔
    (s ≠ "" ∧ c.onlyAdd = true)) ∧
  (∀ s : String, _skbprio ∈ c.appendArgs [] { skbprio := s } ↔
    (s ≠ "" ∧ c.onlyAdd = true)) ∧
  (∀ n : Nat, _skbqueue ∈ c.appendArgs [] { skbqueue := n } ↔
    (n ≠ 0 ∧ c.onlyAdd = true)) ∧
  (∀ b : Bool, _nomatch ∈ c.appendArgs [] { nomatch' := b } ↔
    (b = true ∧ c.needNomatch = true)) ∧
  (∀ b : Bool, _forceadd ∈ c.appendArgs [] { forceadd := b } ↔
    (b = true ∧ c.onlyCreate = true)) ∧
  (∀ s : String, _family ∈ c.appendArgs [] { family := s } ↔
    (s ≠ "" ∧ c.needFamily = true)) ∧
  (∀ n : Nat, _hashsize ∈ c.appendArgs [] { hashSize := n } ↔
    (n ≠ 0 ∧ c.needHash = true)) ∧
  (∀ n : Nat, _maxelem ∈ c.appendArgs [] { maxElem := n } ↔
    (n ≠ 0 ∧ c.needHash = true)) ∧
  (∀ n : Nat, _netmask ∈ c.appendArgs [] { netmask := n } ↔
    (n ≠ 0 ∧ c.needNetmask = true)) ∧
  (∀ n : Nat, _markmask ∈ c.appendArgs [] { markmask := n } ↔
    (n ≠ 0 ∧ c.needMarkmask = true)) ∧
  (∀ n : Nat, _size ∈ c.appendArgs [] { listSize := n } ↔
    (n ≠ 0 ∧ c.needListSize = true)) ∧
  (∀ s : String, _range ∈ c.appendArgs [] { ipRange := s } ↔
    (s ≠ "" ∧ c.needIpRange = true)) ∧
  (∀ s : String, _range ∈ c.appendArgs [] { portRange := s } ↔
    (s ≠ "" ∧ c.needPortRange = true))

/-! ## Reuse pools (cmd.go `getCmd`/`putCmd`, option.go pool) -/

/-- `getCmd` from cmd.go: `prev` is the instance handed out by the pool;
action, name and set type are always overwritten, the entry only when an
entry argument is supplied (`entry ...string` is variadic in the source,
modelled as `Option String`). -/
def getCmd (prev : cmd) (action name setType : String)
    (entry : Option String) : cmd :=
  { prev with
    action := action
    name := name
    setType := setType
    entry := match entry with | some e => e | none => prev.entry }

/-- `putCmd` from cmd.go: truncates the output buffer
(`c.out = c.out[:0]`) and returns the instance to the pool; no other field
is touched. -/
def putCmd (c : cmd) : cmd := { c with out := "" }

/-! ## External-tool outcomes, `set.Test` and failure wrapping -/

/-- The outcome of one external-tool invocation as observed through
`CombinedOutput`: the combined stdout+stderr bytes and whether the call
returned a non-nil error (non-zero exit or execution failure). -/
structure ExecOutcome where
  out : String
  failed : Bool
deriving DecidableEq, Repr

/-- `bytes.Contains pat` (true iff `pat` occurs as a contiguous
substring). -/
def containsSub (pat : List Char) : List Char → Bool
  | [] => hasPrefCL pat []
  | c :: cs => hasPrefCL pat (c :: cs) || containsSub pat cs

/-- `var notFlag = []byte("NOT")` from set.go. -/
def notFlag : List Char := "NOT".toList

/-- `(s set) Test` from set.go, with the tool outcome passed explicitly:
success means membership; a failure whose output carries the NOT marker is
a definite "not present"; any other failure is wrapped in the
three-argument message shape. -/
def setTest (name entry : String) (r : ExecOutcome) : Bool × Option String :=
  if r.failed then
    if containsSub notFlag r.out.data then (false, none)
    else (false, some ("ipset: can't test " ++ name ++ " " ++ entry ++
      ": " ++ r.out))
  else (true, none)

/-- The failure branch of `(c *cmd) exec` from cmd.go: the two message
shapes, selected by `isTwoArgs`. -/
def cmd.execErr (c : cmd) (out : String) : String :=
  if c.isTwoArgs then
    "ipset: can't " ++ c.action ++ " " ++ c.name ++ ": " ++ out
  else
    "ipset: can't " ++ c.action ++ " " ++ c.name ++ " " ++ c.entry ++
      ": " ++ out

/-- `(c *cmd) exec` from cmd.go with the tool outcome passed explicitly:
on failure the wrapped message is returned; on success the combined output
is appended to the descriptor's buffer only for the resolve-capable
actions (list, save). -/
def cmd.exec (c : cmd) (r : ExecOutcome) : cmd × Option String :=
  if r.failed then (c, some (c.execErr r.out))
  else (if c.needResolve then { c with out := c.out ++ r.out } else c, none)

/-- Modelled from the spec: the package-level `flush(name)` helper lives
in the repository file ipset.go, which is not under src/; spec §6 lists
`flush` under the two-argument shape, but the repository's own test
`Test_Set_Flush` (src/set_test.go) pins the exact message
`ipset: can't flush set <name>: <output>`, and the tests are taken as
authoritative for the missing code. -/
def flushErr (name out : String) : String :=
  "ipset: can't flush set " ++ name ++ ": " ++ out

/-- Modelled from the spec: the package-level `destroy(name)` helper from
ipset.go (not under src/); the test `Test_Set_Destroy` (src/set_test.go)
pins the message `ipset: can't destroy set <name>: <output>`. -/
def destroyErr (name out : String) : String :=
  "ipset: can't destroy set " ++ name ++ ": " ++ out

/-! ## The restore streamer (set.go `Restore` / `restore`) -/

/-- The reader model of repeated `bufio.Reader.ReadBytes('\n')` until EOF:
splits the byte stream into its newline-terminated lines (each keeping its
trailing newline) plus the unterminated trailing remainder, which
`ReadBytes` hands back together with `io.EOF`.  `cur` accumulates the
current line. -/
def linesRemAux (cur : List Char) : List Char → List (List Char) × List Char
  | [] => ([], cur)
  | c :: cs =>
    if c = '\n' then
      let p := linesRemAux [] cs
      ((cur ++ [c]) :: p.1, p.2)
    else linesRemAux (cur ++ [c]) cs

def linesRem (s : List Char) : List (List Char) × List Char :=
  linesRemAux [] s

/-- One run of the read/flush loop of `(s set) Restore` over the complete
lines, plus the final `s.restore(b.Bytes())` call.  `run` gives the
outcome of one `restore` invocation on a payload (`none` = success,
`some e` = the error text the invocation surfaces); `buf` is the
accumulation buffer `b`.  Returns the payloads handed to the successive
`restore` invocations, in order, and the raw error of the first failed
one, if any; after a failure no further invocation is issued. -/
def restoreLoop (run : List Char → Option String) (maxR : Nat) :
    List Char → List (List Char) → List (List Char) × Option String
  | buf, [] => ([buf], run buf)
  | buf, bb :: rest =>
    if maxR < buf.length + bb.length then
      match run buf with
      | some e => ([buf], some e)
      | none =>
        let p := restoreLoop run maxR bb rest
        (buf :: p.1, p.2)
    else restoreLoop run maxR (buf ++ bb) rest

/-- `(s set) Restore` from set.go, with each chunk's tool outcome given by
`run`: read newline-terminated lines (a trailing partial line arrives
together with `io.EOF` and is discarded by the `break`), flush the buffer
through `restore` whenever appending the next line would exceed
`maxRestoreSize`, always issue a final invocation on the remaining
buffer, and wrap the first failure via the deferred
`ipset: can't restore to <name>(<type>): <err>`. -/
def setRestore (run : List Char → Option String) (maxR : Nat)
    (name setType : String) (input : List Char) :
    List (List Char) × Option String :=
  let p := restoreLoop run maxR [] (linesRem input).1
  (p.1, p.2.map (fun e =>
    "ipset: can't restore to " ++ name ++ "(" ++ setType ++ "): " ++ e))

/-- The chunk decomposition of a stream: the payload sequence that
`set.Restore` issues when every invocation succeeds. -/
def restoreChunks (maxR : Nat) (input : List Char) : List (List Char) :=
  (restoreLoop (fun _ => none) maxR [] (linesRem input).1).1

/-! ## The listing parser (set.go `parseInfo` / `getNumber`) -/

/-- The suffix of `t` after its last space, if `t` contains one
(`strings.LastIndexByte(t, ' ')` followed by the slice `t[i+1:]`). -/
def afterLastSpace? : List Char → Option (List Char)
  | [] => none
  | c :: cs =>
    match afterLastSpace? cs with
    | some r => some r
    | none => if c = ' ' then some cs else none

def atoiNatAux : List Char → Nat → Option Nat
  | [], acc => some acc
  | c :: cs, acc =>
    if c.isDigit then atoiNatAux cs (acc * 10 + (c.toNat - '0'.toNat))
    else none

/-- The digit-string part of `strconv.Atoi`: a nonempty all-digit string
(overflow of the 64-bit range is not modelled). -/
def atoiNat : List Char → Option Nat
  | [] => none
  | ds => atoiNatAux ds 0

/-- `strconv.Atoi`: an optional sign followed by a nonempty digit
string. -/
def atoi : List Char → Except Unit Int
  | [] => Except.error ()
  | '+' :: ds =>
    match atoiNat ds with
    | some n => Except.ok (n : Int)
    | none => Except.error ()
  | '-' :: ds =>
    match atoiNat ds with
    | some n => Except.ok (-(n : Int))
    | none => Except.error ()
  | ds =>
    match atoiNat ds with
    | some n => Except.ok (n : Int)
    | none => Except.error ()

/-- `getNumber` from set.go: when the line contains a space, `Atoi` of the
suffix after the last one; otherwise the named results `(0, nil)` are
returned unchanged — zero with a nil error. -/
def getNumber (t : List Char) : Except Unit Int :=
  match afterLastSpace? t with
  | some r => atoi r
  | none => Except.ok 0

/-- The `Info` record from set.go; entry lines are kept as raw strings,
and the name and set type are filled in by `set.List`, not by the
parser. -/
structure Info where
  Name : String := ""
  SetType : String := ""
  Revision : Int := 0
  Header : List Char := []
  SizeInMemory : Int := 0
  References : Int := 0
  Entries : List (List Char) := []
deriving DecidableEq, Repr

/-- The observable outcome of `parseInfo`: a run-time panic (the slice
expression `t[8:]` evaluated on a line shorter than 8 bytes), a returned
parse error, or success. -/
inductive ParseOut where
  | panics : ParseOut
  | fails : ParseOut
  | ok : Info → ParseOut
deriving DecidableEq, Repr

/-- The scanner loop of `parseInfo` from set.go: the five prefix cases in
source order (`Rev`, `H`, `S`, `Ref`, `M`); the `M` case is the
`goto Entries`, which accumulates every remaining line verbatim. -/
def parseInfoLoop (info : Info) : List (List Char) → ParseOut
  | [] => ParseOut.ok info
  | t :: rest =>
    if hasPrefCL "Rev".toList t then
      match getNumber t with
      | Except.error _ => ParseOut.fails
      | Except.ok n => parseInfoLoop { info with Revision := n } rest
    else if hasPrefCL "H".toList t then
      if t.length < 8 then ParseOut.panics
      else parseInfoLoop { info with Header := t.drop 8 } rest
    else if hasPrefCL "S".toList t then
      match getNumber t with
      | Except.error _ => ParseOut.fails
      | Except.ok n => parseInfoLoop { info with SizeInMemory := n } rest
    else if hasPrefCL "Ref".toList t then
      match getNumber t with
      | Except.error _ => ParseOut.fails
      | Except.ok n => parseInfoLoop { info with References := n } rest
    else if hasPrefCL "M".toList t then
      ParseOut.ok { info with Entries := info.Entries ++ rest }
    else parseInfoLoop info rest

def parseInfo (lines : List (List Char)) : ParseOut :=
  parseInfoLoop {} lines

deriving instance DecidableEq for Except

theorem ite_append {p : Prop} [Decidable p] (args l : List String) :
    (if p then args ++ l else args) = args ++ (if p then l else []) := by
  split <;> simp

theorem appendArgs_decomp (c : cmd) (args : List String) (o : options) :
    c.appendArgs args o = args ++ flagTokens c o := by
  simp only [cmd.appendArgs, flagTokens, catTimeout, catExist, catResolve,
    catCounters, catPackets, catBytes, catCommentFlag, catCommentContent,
    catSkbinfo, catSkbmark, catSkbprio, catSkbqueue, catNomatch,
    catForceadd, catFamily, catHashsize, catMaxelem, catNetmask,
    catMarkmask, catListSize, catIpRange, catPortRange]
  simp only [ite_append]
  simp only [List.append_assoc]

theorem buildArgs_decomp (c : cmd) (o : options) :
    c.buildArgs o =
      (if c.isTwoArgs then [c.action, c.name]
        else [c.action, c.name, c.entry]) ++ flagTokens c o := by
  simp only [cmd.buildArgs, appendArgs_decomp]
  cases h : c.isTwoArgs <;> simp [h]

theorem mem_ite_pair {p : Prop} [Decidable p] (f v : String) :
    f ∈ (if p then [f, v] else []) ↔ p := by
  split <;> simp_all

theorem mem_ite_single {p : Prop} [Decidable p] (f : String) :
    f ∈ (if p then [f] else []) ↔ p := by
  split <;> simp_all

theorem modifierFlagMatrix_all (c : cmd) : modifierFlagMatrix c := by
  unfold modifierFlagMatrix
  refine ⟨?_, ?_, ?_, ?_, ?_, ?_, ?_, ?_, ?_, ?_, ?_, ?_, ?_, ?_, ?_, ?_,
    ?_, ?_, ?_, ?_, ?_, ?_, ?_⟩ <;>
  · try intro v
    rw [appendArgs_decomp]
    simp [flagTokens, catTimeout, catExist, catResolve, catCounters,
      catPackets, catBytes, catCommentFlag, catCommentContent, catSkbinfo,
      catSkbmark, catSkbprio, catSkbqueue, catNomatch, catForceadd,
      catFamily, catHashsize, catMaxelem, catNetmask, catMarkmask,
      catListSize, catIpRange, catPortRange, mem_ite_pair, mem_ite_single]

/-- C1 (amended): for every action among the 11 verbs and every set type
among the 16 fixed values, and every modifier category, the token list
produced by `cmd.appendArgs` contains that category's flag iff the
category's applicability predicate holds and the supplied value differs
from the unset sentinel — where for the signed `timeout` duration the
source requires the value to be strictly positive, so a negative duration
(not the sentinel) also contributes nothing; a sentinel-valued modifier
never contributes a token, and an all-sentinel bag compiles to no tokens
at all. -/
theorem claim_C1 : ∀ a ∈ actions, ∀ st ∈ setTypes, ∀ name entry : String,
    modifierFlagMatrix ⟨a, name, entry, st, ""⟩ := by
  intro a _ st _ name entry
  exact modifierFlagMatrix_all _

/-- C1 counterexample: for the `create` action on `hash:ip` the timeout
predicate holds and `-1ns` is not the unset sentinel, yet no `timeout`
token is emitted, refuting the claimed "iff" for the timeout category. -/
theorem claim_C1_counterexample :
    cmd.needTimeout ⟨_create, "test", "1.1.1.1", HashIp, ""⟩ = true ∧
    ¬((-1 : Int) = 0) ∧
    _timeout ∉ cmd.appendArgs ⟨_create, "test", "1.1.1.1", HashIp, ""⟩ []
      { timeout := -1 } := by
  refine ⟨by decide, by decide, ?_⟩
  rw [appendArgs_decomp]
  simp [flagTokens, catTimeout, catExist, catResolve, catCounters,
    catPackets, catBytes, catCommentFlag, catCommentContent, catSkbinfo,
    catSkbmark, catSkbprio, catSkbqueue, catNomatch, catForceadd,
    catFamily, catHashsize, catMaxelem, catNetmask, catMarkmask,
    catListSize, catIpRange, catPortRange]

/-- C1 witness: the `create` verb and `hash:net` type are in the fixed
taxonomy, and a one-second timeout on `create` does emit the flag. -/
theorem claim_C1_witness :
    (_create ∈ actions ∧ HashNet ∈ setTypes) ∧
      _timeout ∈ cmd.appendArgs ⟨_create, "t", "e", HashNet, ""⟩ []
        { timeout := 1000000000 } := by
  refine ⟨⟨by decide, by decide⟩, ?_⟩
  have h := claim_C1 _create (by decide) HashNet (by decide) "t" "e"
  unfold modifierFlagMatrix at h
  exact (h.2.1 1000000000).mpr ⟨by decide, by decide⟩

/-- C2: `cmd.buildArgs` emits the positional tokens first — `[action,
name]` for list/save/destroy/flush, `[action, name, entry]` for every
other action — and then the flag tokens, as the concatenation of the
per-category token lists in exactly the fixed category order timeout,
exist, resolve, counters, packets, bytes, comment-flag, comment-content,
skbinfo, skbmark, skbprio, skbqueue, nomatch, forceadd, family, hashsize,
maxelem, netmask, markmask, list-size, ip-range, port-range. -/
theorem claim_C2 (c : cmd) (o : options) :
    c.buildArgs o =
      (if c.action = _list ∨ c.action = _save ∨ c.action = _destroy ∨
          c.action = _flush then [c.action, c.name]
        else [c.action, c.name, c.entry]) ++
      (catTimeout c o ++ catExist c o ++ catResolve c o ++ catCounters c o ++
        catPackets c o ++ catBytes c o ++ catCommentFlag c o ++
        catCommentContent c o ++ catSkbinfo c o ++ catSkbmark c o ++
        catSkbprio c o ++ catSkbqueue c o ++ catNomatch c o ++
        catForceadd c o ++ catFamily c o ++ catHashsize c o ++
        catMaxelem c o ++ catNetmask c o ++ catMarkmask c o ++
        catListSize c o ++ catIpRange c o ++ catPortRange c o) := by
  rw [buildArgs_decomp]
  have h : (c.isTwoArgs = true) ↔
      (c.action = _list ∨ c.action = _save ∨ c.action = _destroy ∨
        c.action = _flush) := by
    simp [cmd.isTwoArgs, or_assoc]
  by_cases hc : c.isTwoArgs = true
  · rw [if_pos hc, if_pos (h.mp hc)]
    rfl
  · rw [if_neg hc, if_neg (fun hd => hc (h.mpr hd))]
    rfl

/-- C7 counterexample: a released command descriptor still holds the
previous borrower's action, name, entry and set type — it is not the
all-sentinel record — and a reacquisition that supplies no entry argument
(as `list`/`save`/`destroy`/`flush` do) exposes the stale entry to the
next borrower. -/
theorem claim_C7_counterexample :
    putCmd ⟨_add, "foo", "1.1.1.1", HashIp, "captured"⟩ ≠
      ⟨"", "", "", "", ""⟩ ∧
    (putCmd ⟨_add, "foo", "1.1.1.1", HashIp, "captured"⟩).entry =
      "1.1.1.1" ∧
    (getCmd (putCmd ⟨_add, "foo", "1.1.1.1", HashIp, "captured"⟩)
        _list "bar" HashIp none).entry = "1.1.1.1" := by
  refine ⟨by decide, rfl, rfl⟩

/-- C7 (amended): releasing a modifier set resets all 22 fields to their
unset sentinels, but releasing a command descriptor resets only the output
buffer; action, name, entry and set type survive, and the entry is
observable after a reacquisition that passes no entry argument. -/
theorem claim_C7_amended :
    (∀ o : options, releaseOptions o = {}) ∧
    (∀ c : cmd, (putCmd c).action = c.action ∧ (putCmd c).name = c.name ∧
      (putCmd c).entry = c.entry ∧ (putCmd c).setType = c.setType ∧
      (putCmd c).out = "") ∧
    (∀ c action name setType,
      (getCmd c action name setType none).entry = c.entry) :=
  ⟨fun _ => rfl, fun _ => ⟨rfl, rfl, rfl, rfl, rfl⟩, fun _ _ _ _ => rfl⟩

/-- C3: `set.Test` returns `(true, nil)` on tool success, `(false, nil)`
when the tool fails and its combined output contains the "NOT" marker, and
for every other failure `(false, err)` where `err` carries the set name,
the entry and the raw output in the three-argument message shape. -/
theorem claim_C3 (name entry : String) (r : ExecOutcome) :
    (r.failed = false → setTest name entry r = (true, none)) ∧
    (r.failed = true → containsSub notFlag r.out.data = true →
      setTest name entry r = (false, none)) ∧
    (r.failed = true → containsSub notFlag r.out.data = false →
      setTest name entry r = (false, some ("ipset: can't test " ++ name ++
        " " ++ entry ++ ": " ++ r.out))) := by
  refine ⟨?_, ?_, ?_⟩
  · intro h; simp [setTest, h]
  · intro h1 h2; simp [setTest, h1, h2]
  · intro h1 h2; simp [setTest, h1, h2]

/-- C3 witness: a plain failure without the NOT marker yields `false` plus
the three-argument error message. -/
theorem claim_C3_witness :
    setTest "test" "1.1.1.1" ⟨"fake error", true⟩ =
      (false, some ("ipset: can't test " ++ "test" ++ " " ++ "1.1.1.1" ++
        ": " ++ "fake error")) :=
  (claim_C3 "test" "1.1.1.1" ⟨"fake error", true⟩).2.2 rfl (by decide)

/-- C6 counterexample: for the `flush` and `destroy` actions the surfaced
message inserts the word `set` after the verb, so it is not the claimed
`ipset: can't <action> <name>: <output>` shape. -/
theorem claim_C6_counterexample :
    flushErr "test" "fake error" ≠ "ipset: can't flush test: fake error" ∧
    flushErr "test" "fake error" =
      "ipset: can't flush set test: fake error" ∧
    destroyErr "test" "fake error" ≠
      "ipset: can't destroy test: fake error" ∧
    destroyErr "test" "fake error" =
      "ipset: can't destroy set test: fake error" := by
  refine ⟨by decide, by decide, by decide, by decide⟩

/-- C6 (amended): on a failed invocation, `cmd.exec` produces
`ipset: can't <action> <name>: <output>` for the two-argument actions that
actually flow through it (list, save) and
`ipset: can't <action> <name> <entry-or-second-name>: <output>` for the
three-argument actions (create, add, del, rename); `set.Test` uses the
same three-argument shape; but `set.Flush` and `set.Destroy` surface
`ipset: can't flush set <name>: <output>` and
`ipset: can't destroy set <name>: <output>`.  The raw combined output is
preserved verbatim after the final `: `. -/
theorem claim_C6_amended (name entry out : String) :
    (∀ a, a = _list ∨ a = _save →
      (cmd.exec ⟨a, name, entry, HashIp, ""⟩ ⟨out, true⟩).2 =
        some ("ipset: can't " ++ a ++ " " ++ name ++ ": " ++ out)) ∧
    (∀ a, a = _create ∨ a = _add ∨ a = _del ∨ a = _rename →
      (cmd.exec ⟨a, name, entry, HashIp, ""⟩ ⟨out, true⟩).2 =
        some ("ipset: can't " ++ a ++ " " ++ name ++ " " ++ entry ++
          ": " ++ out)) ∧
    (containsSub notFlag out.data = false →
      (setTest name entry ⟨out, true⟩).2 =
        some ("ipset: can't test " ++ name ++ " " ++ entry ++ ": " ++
          out)) ∧
    flushErr name out = "ipset: can't flush set " ++ name ++ ": " ++ out ∧
    destroyErr name out =
      "ipset: can't destroy set " ++ name ++ ": " ++ out := by
  refine ⟨?_, ?_, ?_, rfl, rfl⟩
  · rintro a (rfl | rfl)
    · have ht : cmd.isTwoArgs ⟨_list, name, entry, HashIp, ""⟩ = true := rfl
      simp [cmd.exec, cmd.execErr, ht]
    · have ht : cmd.isTwoArgs ⟨_save, name, entry, HashIp, ""⟩ = true := rfl
      simp [cmd.exec, cmd.execErr, ht]
  · rintro a (rfl | rfl | rfl | rfl)
    · have ht : cmd.isTwoArgs ⟨_create, name, entry, HashIp, ""⟩ = false := rfl
      simp [cmd.exec, cmd.execErr, ht]
    · have ht : cmd.isTwoArgs ⟨_add, name, entry, HashIp, ""⟩ = false := rfl
      simp [cmd.exec, cmd.execErr, ht]
    · have ht : cmd.isTwoArgs ⟨_del, name, entry, HashIp, ""⟩ = false := rfl
      simp [cmd.exec, cmd.execErr, ht]
    · have ht : cmd.isTwoArgs ⟨_rename, name, entry, HashIp, ""⟩ = false := rfl
      simp [cmd.exec, cmd.execErr, ht]
  · intro hn
    simp [setTest, hn]

/-- C6 witness: the list action at concrete inputs. -/
theorem claim_C6_amended_witness :
    (cmd.exec ⟨_list, "test", "1.1.1.1", HashIp, ""⟩
        ⟨"fake error", true⟩).2 =
      some ("ipset: can't " ++ _list ++ " " ++ "test" ++ ": " ++
        "fake error") :=
  (claim_C6_amended "test" "1.1.1.1" "fake error").1 _list (Or.inl rfl)

theorem linesRemAux_join (s : List Char) : ∀ cur : List Char,
    ((linesRemAux cur s).1).flatten ++ (linesRemAux cur s).2 = cur ++ s := by
  induction s with
  | nil => intro cur; simp [linesRemAux]
  | cons c cs ih =>
    intro cur
    by_cases hc : c = '\n'
    · simp only [linesRemAux, if_pos hc, List.flatten_cons, List.append_assoc,
        ih []]
      simp [hc]
    · simp only [linesRemAux, if_neg hc]
      rw [ih (cur ++ [c])]
      simp

theorem restoreLoop_none_err (maxR : Nat) :
    ∀ (ls : List (List Char)) (buf : List Char),
      (restoreLoop (fun _ => none) maxR buf ls).2 = none := by
  intro ls
  induction ls with
  | nil => intro buf; simp [restoreLoop]
  | cons bb rest ih =>
    intro buf
    by_cases hc : maxR < buf.length + bb.length
    · simp [restoreLoop, hc, ih]
    · simp [restoreLoop, hc, ih]

theorem restoreLoop_none_join (maxR : Nat) :
    ∀ (ls : List (List Char)) (buf : List Char),
      ((restoreLoop (fun _ => none) maxR buf ls).1).flatten = buf ++ ls.flatten := by
  intro ls
  induction ls with
  | nil => intro buf; simp [restoreLoop]
  | cons bb rest ih =>
    intro buf
    by_cases hc : maxR < buf.length + bb.length
    · simp [restoreLoop, hc, ih]
    · simp [restoreLoop, hc, ih bb, ih (buf ++ bb)]

theorem restoreLoop_ne_nil (run : List Char → Option String) (maxR : Nat) :
    ∀ (ls : List (List Char)) (buf : List Char),
      (restoreLoop run maxR buf ls).1 ≠ [] := by
  intro ls
  induction ls with
  | nil => intro buf; simp [restoreLoop]
  | cons bb rest ih =>
    intro buf
    by_cases hc : maxR < buf.length + bb.length
    · cases he : run buf <;> simp [restoreLoop, hc, he]
    · simp [restoreLoop, hc, ih]

theorem restoreLoop_take (run : List Char → Option String) (maxR : Nat) :
    ∀ (ls : List (List Char)) (buf : List Char),
      (restoreLoop run maxR buf ls).1 =
        ((restoreLoop (fun _ => none) maxR buf ls).1).take
          (restoreLoop run maxR buf ls).1.length := by
  intro ls
  induction ls with
  | nil => intro buf; simp [restoreLoop]
  | cons bb rest ih =>
    intro buf
    by_cases hc : maxR < buf.length + bb.length
    · cases he : run buf with
      | some e => simp [restoreLoop, hc, he]
      | none =>
        simp only [restoreLoop, if_pos hc, he]
        rw [List.length_cons, List.take_succ_cons]
        exact congrArg (List.cons buf) (ih bb)
    · simp only [restoreLoop, if_neg hc]
      exact ih (buf ++ bb)

theorem restoreLoop_ok_eq (run : List Char → Option String) (maxR : Nat) :
    ∀ (ls : List (List Char)) (buf : List Char),
      (restoreLoop run maxR buf ls).2 = none →
      (restoreLoop run maxR buf ls).1 =
        (restoreLoop (fun _ => none) maxR buf ls).1 := by
  intro ls
  induction ls with
  | nil => intro buf _; simp [restoreLoop]
  | cons bb rest ih =>
    intro buf h
    by_cases hc : maxR < buf.length + bb.length
    · cases he : run buf with
      | some e => simp [restoreLoop, hc, he] at h
      | none =>
        simp only [restoreLoop, if_pos hc, he] at h ⊢
        simp only [List.cons.injEq, true_and]
        exact ih bb h
    · simp only [restoreLoop, if_neg hc] at h ⊢
      exact ih (buf ++ bb) h

theorem restoreLoop_fail (run : List Char → Option String) (maxR : Nat) :
    ∀ (ls : List (List Char)) (buf : List Char) (e : String),
      (restoreLoop run maxR buf ls).2 = some e →
      ∃ b, (restoreLoop run maxR buf ls).1.getLast? = some b ∧
        run b = some e := by
  intro ls
  induction ls with
  | nil =>
    intro buf e h
    simp only [restoreLoop] at h ⊢
    exact ⟨buf, rfl, h⟩
  | cons bb rest ih =>
    intro buf e h
    by_cases hc : maxR < buf.length + bb.length
    · cases he : run buf with
      | some e' =>
        simp only [restoreLoop, if_pos hc, he] at h ⊢
        obtain rfl : e' = e := by simpa using h
        exact ⟨buf, rfl, he⟩
      | none =>
        simp only [restoreLoop, if_pos hc, he] at h ⊢
        obtain ⟨b, hb, hrb⟩ := ih bb e h
        refine ⟨b, ?_, hrb⟩
        have hne := restoreLoop_ne_nil run maxR rest bb
        cases hp : (restoreLoop run maxR bb rest).1 with
        | nil => exact absurd hp hne
        | cons x xs =>
          rw [hp] at hb
          simpa [List.getLast?_cons_cons] using hb
    · simp only [restoreLoop, if_neg hc] at h ⊢
      exact ih (buf ++ bb) e h

/-- C5: for every newline-terminated input stream, the restore invocations
are issued sequentially in stream order (the issued payloads are a prefix
of the chunk decomposition), the concatenation of the full chunk
decomposition is the original stream and is actually issued when no
invocation fails, a failing chunk stops the run and its raw error is
returned wrapped with the set name and type, a final invocation is always
issued; and with maximum chunk size 10 the stream
`"1.1.1.1\n2.2.2.2\n"` produces at least two invocations. -/
theorem claim_C5 :
    (∀ (run : List Char → Option String) (maxR : Nat)
        (name setType : String) (input : List Char),
      (linesRem input).2 = [] →
      ((∃ k, (setRestore run maxR name setType input).1 =
          (restoreChunks maxR input).take k) ∧
        (restoreChunks maxR input).flatten = input ∧
        ((setRestore run maxR name setType input).2 = none →
          (setRestore run maxR name setType input).1 =
            restoreChunks maxR input) ∧
        (∀ m, (setRestore run maxR name setType input).2 = some m →
          ∃ b e, (setRestore run maxR name setType input).1.getLast? =
              some b ∧ run b = some e ∧
            m = "ipset: can't restore to " ++ name ++ "(" ++ setType ++
              "): " ++ e) ∧
        (setRestore run maxR name setType input).1 ≠ [])) ∧
    2 ≤ (restoreChunks 10 ("1.1.1.1\n2.2.2.2\n".toList)).length := by
  constructor
  · intro run maxR name setType input hrem
    refine ⟨⟨(restoreLoop run maxR [] (linesRem input).1).1.length, ?_⟩,
      ?_, ?_, ?_, ?_⟩
    · simpa [setRestore, restoreChunks] using
        restoreLoop_take run maxR (linesRem input).1 []
    · have h2 := linesRemAux_join input []
      simp only [linesRem] at hrem
      rw [hrem] at h2
      simp only [List.append_nil, List.nil_append] at h2
      simp [restoreChunks, restoreLoop_none_join, linesRem, h2]
    · intro h
      have hl : (restoreLoop run maxR [] (linesRem input).1).2 = none := by
        simpa [setRestore] using h
      simpa [setRestore, restoreChunks] using
        restoreLoop_ok_eq run maxR (linesRem input).1 [] hl
    · intro m hm
      simp only [setRestore, Option.map_eq_some'] at hm
      obtain ⟨e, he, hwe⟩ := hm
      obtain ⟨b, hb, hrb⟩ := restoreLoop_fail run maxR (linesRem input).1 [] e he
      exact ⟨b, e, by simpa [setRestore] using hb, hrb, hwe.symm⟩
    · simpa [setRestore] using
        restoreLoop_ne_nil run maxR (linesRem input).1 []
  · decide

/-- C5 witness: the concrete stream with two 8-byte lines and limit 10,
with every invocation succeeding. -/
theorem claim_C5_witness :
    (setRestore (fun _ => none) 10 "test" "hash:ip"
        ("1.1.1.1\n2.2.2.2\n".toList)).1 =
      restoreChunks 10 ("1.1.1.1\n2.2.2.2\n".toList) :=
  (claim_C5.1 (fun _ => none) 10 "test" "hash:ip"
    ("1.1.1.1\n2.2.2.2\n".toList) (by decide)).2.2.1 (by decide)

/-- C4 counterexample: with maximum chunk size 10, a single 13-byte
newline-terminated line is handed to a restore invocation as a 13-byte
payload, so not every payload is bounded by `maxRestoreSize`. -/
theorem claim_C4_counterexample :
    ¬ (∀ ch ∈ restoreChunks 10 ("0123456789AB\n".toList),
        ch.length ≤ 10) := by decide

/-- C4 (amended): every payload handed to a single restore invocation has
length at most `maxRestoreSize`, provided every newline-terminated line of
the stream is itself at most `maxRestoreSize` long; a longer line is
flushed as a single oversized payload. -/
theorem claim_C4_amended (maxR : Nat) (input : List Char)
    (h : ∀ l ∈ (linesRem input).1, l.length ≤ maxR) :
    ∀ ch ∈ restoreChunks maxR input, ch.length ≤ maxR := by
  have main : ∀ (ls : List (List Char)) (buf : List Char),
      buf.length ≤ maxR → (∀ l ∈ ls, l.length ≤ maxR) →
      ∀ ch ∈ (restoreLoop (fun _ => none) maxR buf ls).1,
        ch.length ≤ maxR := by
    intro ls
    induction ls with
    | nil =>
      intro buf hb _ ch hch
      simp only [restoreLoop, List.mem_singleton] at hch
      subst hch
      exact hb
    | cons bb rest ih =>
      intro buf hb hl ch hch
      by_cases hc : maxR < buf.length + bb.length
      · simp only [restoreLoop, if_pos hc, List.mem_cons] at hch
        rcases hch with rfl | hch
        · exact hb
        · exact ih bb (hl bb (by simp)) (fun l hl' => hl l (by simp [hl']))
            ch hch
      · simp only [restoreLoop, if_neg hc] at hch
        refine ih (buf ++ bb) ?_ (fun l hl' => hl l (by simp [hl'])) ch hch
        simpa [List.length_append] using Nat.not_lt.mp hc
  intro ch hch
  exact main (linesRem input).1 [] (by simp) h ch
    (by simpa [restoreChunks] using hch)

/-- C4 witness: on the two-line stream whose lines are both within the
10-byte bound, the first issued chunk is within the bound. -/
theorem claim_C4_amended_witness :
    (("1.1.1.1\n".toList : List Char)).length ≤ 10 :=
  claim_C4_amended 10 ("1.1.1.1\n2.2.2.2\n".toList) (by decide)
    ("1.1.1.1\n".toList) (by decide)

/-- C9: when every invocation succeeds, `set.Restore` reports success and
streams exactly the newline-terminated prefix of its input: the trailing
partial line handed back together with `io.EOF` is discarded; on
`"a\nb"` only `"a\n"` reaches the tool and the remainder `"b"` is lost. -/
theorem claim_C9 :
    (∀ (maxR : Nat) (name setType : String) (input : List Char),
      (setRestore (fun _ => none) maxR name setType input).2 = none ∧
      ((setRestore (fun _ => none) maxR name setType input).1).flatten =
        ((linesRem input).1).flatten) ∧
    (linesRem ("a\nb".toList)).2 = "b".toList ∧
    ((setRestore (fun _ => none) 16 "n" "t" ("a\nb".toList)).1).flatten =
      "a\n".toList ∧
    (setRestore (fun _ => none) 16 "n" "t" ("a\nb".toList)).2 = none := by
  refine ⟨?_, by decide, by decide, by decide⟩
  intro maxR name setType input
  constructor
  · simp [setRestore, restoreLoop_none_err]
  · simpa [setRestore] using
      restoreLoop_none_join maxR (linesRem input).1 []

/-- C10: a header-section line that starts with `H`, is shorter than 8
bytes and does not match the earlier `Rev` case drives `parseInfo` into
the slice expression `t[8:]`, a slice-bounds panic — not a parse error. -/
theorem claim_C10 (t : List Char) (rest : List (List Char)) (info : Info)
    (h1 : hasPrefCL "H".toList t = true)
    (h2 : ¬ hasPrefCL "Rev".toList t = true)
    (h3 : t.length < 8) :
    parseInfoLoop info (t :: rest) = ParseOut.panics := by
  simp only [parseInfoLoop, if_neg h2, if_pos h1, if_pos h3]

/-- C10 witness: the line `"Head"`. -/
theorem claim_C10_witness :
    hasPrefCL "H".toList ("Head".toList) = true ∧
    ("Head".toList).length < 8 ∧
    parseInfo [("Head".toList)] = ParseOut.panics := by
  refine ⟨by decide, by decide, ?_⟩
  exact claim_C10 ("Head".toList) [] {} (by decide) (by decide) (by decide)

/-- C8 counterexample: the labeled numeric line `"Revision:4"` contains no
space, so no token can be isolated, yet `parseInfo` succeeds silently with
the field left at zero instead of returning an error. -/
theorem claim_C8_counterexample :
    afterLastSpace? ("Revision:4".toList) = none ∧
    getNumber ("Revision:4".toList) = Except.ok 0 ∧
    parseInfo [("Revision:4".toList)] = ParseOut.ok { Revision := 0 } := by
  refine ⟨by decide, by decide, by decide⟩

/-- C8 (amended): for the labeled numeric header lines (`Rev`, `S`, `Ref`
cases) the value is parsed by `Atoi` from the token after the last space
when the line contains a space, and an invalid token there is a hard
parse failure propagated by `parseInfo`; but a line containing no space
at all yields zero with a nil error, silently keeping the zero default
rather than failing. -/
theorem claim_C8_amended (i : Info) (t : List Char)
    (rest : List (List Char)) :
    (afterLastSpace? t = none → getNumber t = Except.ok 0) ∧
    (∀ tok, afterLastSpace? t = some tok → getNumber t = atoi tok) ∧
    (hasPrefCL "Rev".toList t = true → getNumber t = Except.error () →
      parseInfoLoop i (t :: rest) = ParseOut.fails) ∧
    (¬ hasPrefCL "Rev".toList t = true → ¬ hasPrefCL "H".toList t = true →
      hasPrefCL "S".toList t = true → getNumber t = Except.error () →
      parseInfoLoop i (t :: rest) = ParseOut.fails) ∧
    (¬ hasPrefCL "Rev".toList t = true → ¬ hasPrefCL "H".toList t = true →
      ¬ hasPrefCL "S".toList t = true → hasPrefCL "Ref".toList t = true →
      getNumber t = Except.error () →
      parseInfoLoop i (t :: rest) = ParseOut.fails) := by
  refine ⟨?_, ?_, ?_, ?_, ?_⟩
  · intro h; simp [getNumber, h]
  · intro tok h; simp [getNumber, h]
  · intro h1 hg
    unfold parseInfoLoop
    rw [if_pos h1, hg]
  · intro h1 h2 h3 hg
    unfold parseInfoLoop
    rw [if_neg h1, if_neg h2, if_pos h3, hg]
  · intro h1 h2 h3 h4 hg
    unfold parseInfoLoop
    rw [if_neg h1, if_neg h2, if_neg h3, if_pos h4, hg]

/-- C8 witness: `"Revision: x"` has a space and a non-numeric last token,
and `parseInfo` reports a hard failure on it. -/
theorem claim_C8_amended_witness :
    parseInfoLoop {} [("Revision: x".toList)] = ParseOut.fails :=
  (claim_C8_amended {} ("Revision: x".toList) []).2.2.1 (by decide)
    (by decide)

end Ipset
